import Mathlib

/-!
Shallow embedding of the `thetadata-python` client library
(`thetadata/models.py` and `thetadata/client.py`).

Conventions used throughout:
* Python byte strings are `List Nat` (each element is a byte, `< 256`).
* Python `int` is `Nat` for the unsigned wire integers and `Int` where the
  source can produce negative values (calendar-day arithmetic).
* Python `float` is modelled as `Rat`; decimal literals of the source are
  taken at their exact decimal value.
* Fallible Python code (failing `assert` statements, raised exceptions)
  returns `Except PyError`.
-/

deriving instance DecidableEq for Except

namespace Thetadata

/-- The exceptions the modelled Python code can raise: the two library
exceptions from `thetadata/exceptions.py` (`EnumParseError`, `ResponseError`)
plus the built-in Python exceptions the code can hit. -/
inductive PyError where
  | assertionError (msg : String)
  | enumParseError (code : Nat) (enumName : String)
  | responseError (msg : String)
  | unicodeDecodeError
  | unboundLocalError (name : String)
  | attributeError (msg : String)
  | indexError
  | zeroDivisionError
  deriving DecidableEq, Repr

/-- `int.from_bytes(d, "big")` on a byte slice. -/
def parse_int (d : List Nat) : Nat :=
  d.foldl (fun acc b => acc * 256 + b) 0

/-- `models.py` `DataType`: codes used in the format tick to identify the type
of data in the body ticks.  Constructors are listed in source declaration
order, which is the iteration order of `for member in cls`. -/
inductive DataType where
  | DATE
  | MS_OF_DAY
  | CORRECTION
  | PRICE_TYPE
  | BID_SIZE
  | BID_EXCHANGE
  | BID
  | BID_CONDITION
  | ASK_SIZE
  | ASK_EXCHANGE
  | ASK
  | ASK_CONDITION
  | MIDPOINT
  | VWAP
  | QWAP
  | WAP
  | OPEN_INTEREST
  | PRICE
  | SIZE
  | CONDITION
  | VOLUME
  | COUNT
  | THETA
  | VEGA
  | DELTA
  | RHO
  | EPSILON
  | LAMBDA
  | GAMMA
  | VANNA
  | CHARM
  | VOMMA
  | VETA
  | VERA
  | SOPDK
  | SPEED
  | ZOMMA
  | COLOR
  | ULTIMA
  | D1
  | D2
  | DUAL_DELTA
  | DUAL_GAMMA
  | RATE
  | OPEN
  | HIGH
  | LOW
  | CLOSE
  | IMPLIED_VOL
  | RATIO
  | RATING
  | LIST
  deriving DecidableEq, Repr, Fintype

namespace DataType

/-- The numeric code (`member.value`) of each `DataType` member. -/
def value : DataType → Nat
  | DATE => 0
  | MS_OF_DAY => 1
  | CORRECTION => 2
  | PRICE_TYPE => 4
  | BID_SIZE => 101
  | BID_EXCHANGE => 102
  | BID => 103
  | BID_CONDITION => 104
  | ASK_SIZE => 105
  | ASK_EXCHANGE => 106
  | ASK => 107
  | ASK_CONDITION => 108
  | MIDPOINT => 111
  | VWAP => 112
  | QWAP => 113
  | WAP => 114
  | OPEN_INTEREST => 121
  | PRICE => 131
  | SIZE => 132
  | CONDITION => 133
  | VOLUME => 141
  | COUNT => 142
  | THETA => 151
  | VEGA => 152
  | DELTA => 153
  | RHO => 154
  | EPSILON => 155
  | LAMBDA => 156
  | GAMMA => 161
  | VANNA => 162
  | CHARM => 163
  | VOMMA => 164
  | VETA => 165
  | VERA => 166
  | SOPDK => 167
  | SPEED => 171
  | ZOMMA => 172
  | COLOR => 173
  | ULTIMA => 174
  | D1 => 181
  | D2 => 182
  | DUAL_DELTA => 183
  | DUAL_GAMMA => 184
  | RATE => 191
  | OPEN => 192
  | HIGH => 193
  | LOW => 194
  | CLOSE => 195
  | IMPLIED_VOL => 201
  | RATIO => 211
  | RATING => 212
  | LIST => 213

/-- All members of `DataType`, in declaration order (the order `for member
in cls` iterates in Python). -/
def members : List DataType :=
  [DATE, MS_OF_DAY, CORRECTION, PRICE_TYPE,
   BID_SIZE, BID_EXCHANGE, BID, BID_CONDITION,
   ASK_SIZE, ASK_EXCHANGE, ASK, ASK_CONDITION,
   MIDPOINT, VWAP, QWAP, WAP,
   OPEN_INTEREST,
   PRICE, SIZE, CONDITION,
   VOLUME, COUNT,
   THETA, VEGA, DELTA, RHO, EPSILON, LAMBDA,
   GAMMA, VANNA, CHARM, VOMMA, VETA, VERA, SOPDK,
   SPEED, ZOMMA, COLOR, ULTIMA,
   D1, D2, DUAL_DELTA, DUAL_GAMMA,
   RATE, OPEN, HIGH, LOW, CLOSE,
   IMPLIED_VOL,
   RATIO, RATING, LIST]

/-- `DataType.from_code`: linear scan over the members, returning the first
member whose value equals the code, else `EnumParseError(code, cls)`. -/
def from_code (code : Nat) : Except PyError DataType :=
  match members.find? (fun m => code == m.value) with
  | some m => .ok m
  | none => .error (.enumParseError code "DataType")

/-- `DataType.is_price`: `self == DataType.BID`. -/
def is_price (d : DataType) : Bool :=
  d == BID

end DataType

/-- `models.py` `MessageType`: codes used to identify types of
requests/responses, in source declaration order. -/
inductive MessageType where
  | CREDENTIALS
  | SESSION_TOKEN
  | INFO
  | METADATA
  | CONNECTED
  | PING
  | ERROR
  | DISCONNECTED
  | RECONNECTED
  | REQ_SYMS
  | SET_SYMS
  | CANT_CHANGE_SYMS
  | CHANGED_SYMS
  | HIST
  | ALL_EXPIRATIONS
  | ALL_STRIKES
  | HIST_END
  | LAST_QUOTE
  | ALL_ROOTS
  | LIST_END
  | REQUEST_SERVER_LIST
  | REQUEST_OPTIMAL_SERVER
  | OPTIMAL_SERVER
  | PACKET
  | BAN_IP
  | POPULATION
  deriving DecidableEq, Repr, Fintype

namespace MessageType

/-- The numeric code (`member.value`) of each `MessageType` member. -/
def value : MessageType → Nat
  | CREDENTIALS => 0
  | SESSION_TOKEN => 1
  | INFO => 2
  | METADATA => 3
  | CONNECTED => 4
  | PING => 100
  | ERROR => 101
  | DISCONNECTED => 102
  | RECONNECTED => 103
  | REQ_SYMS => 104
  | SET_SYMS => 105
  | CANT_CHANGE_SYMS => 106
  | CHANGED_SYMS => 107
  | HIST => 200
  | ALL_EXPIRATIONS => 201
  | ALL_STRIKES => 202
  | HIST_END => 203
  | LAST_QUOTE => 204
  | ALL_ROOTS => 205
  | LIST_END => 206
  | REQUEST_SERVER_LIST => 300
  | REQUEST_OPTIMAL_SERVER => 301
  | OPTIMAL_SERVER => 302
  | PACKET => 303
  | BAN_IP => 304
  | POPULATION => 305

/-- All members of `MessageType`, in declaration order. -/
def members : List MessageType :=
  [CREDENTIALS, SESSION_TOKEN, INFO, METADATA, CONNECTED,
   PING, ERROR, DISCONNECTED, RECONNECTED, REQ_SYMS, SET_SYMS,
   CANT_CHANGE_SYMS, CHANGED_SYMS,
   HIST, ALL_EXPIRATIONS, ALL_STRIKES, HIST_END, LAST_QUOTE,
   ALL_ROOTS, LIST_END,
   REQUEST_SERVER_LIST, REQUEST_OPTIMAL_SERVER, OPTIMAL_SERVER,
   PACKET, BAN_IP, POPULATION]

/-- `MessageType.from_code`: linear scan over the members, returning the
first member whose value equals the code, else `EnumParseError(code, cls)`. -/
def from_code (code : Nat) : Except PyError MessageType :=
  match members.find? (fun m => code == m.value) with
  | some m => .ok m
  | none => .error (.enumParseError code "MessageType")

end MessageType

example : DataType.from_code 103 = .ok DataType.BID := rfl
example : DataType.from_code 3 = .error (.enumParseError 3 "DataType") := rfl
example : MessageType.from_code 101 = .ok MessageType.ERROR := rfl

/-- `models.py` `DateRange`: an inclusive date range.  Calendar dates are
modelled as `Int` day numbers (an ordered, day-granular timeline); `timedelta`
subtraction becomes integer subtraction. -/
structure DateRange where
  start : Int
  «end» : Int
  deriving DecidableEq, Repr

/-- `DateRange.__init__`: stores both dates and then
`assert start <= end`; a violated assertion aborts construction. -/
def DateRange.init (start «end» : Int) : Except PyError DateRange :=
  if start ≤ «end» then .ok ⟨start, «end»⟩
  else .error (.assertionError "Start date cannot be greater than end date")

/-- `DateRange.from_days(n)`: asserts `n >= 0`, then builds
`DateRange(today - n days, today)`.  The current date is an explicit `today`
parameter. -/
def DateRange.from_days (today : Int) (n : Int) : Except PyError DateRange :=
  if 0 ≤ n then DateRange.init (today - n) today
  else .error (.assertionError "n must be nonnegative")

/-- `models.py` `Header`: the header returned on every Terminal call. -/
structure Header where
  message_type : MessageType
  id : Nat
  latency : Nat
  error : Nat
  format_len : Nat
  size : Nat
  deriving DecidableEq, Repr

/-- `Header.parse`: asserts the input is exactly 20 bytes, then decodes
`message_type` from `data[:2]` (through `MessageType.from_code`), `id` from
`data[2:10]`, `latency` from `data[10:12]`, `error` from `data[12:14]`,
`format_len` from `data[15]` (byte 14 is never read) and `size` from
`data[16:20]`, all big-endian. -/
def Header.parse (data : List Nat) : Except PyError Header :=
  if data.length = 20 then
    match MessageType.from_code (parse_int ((data.drop 0).take 2)) with
    | .error e => .error e
    | .ok msgtype =>
        .ok { message_type := msgtype
              id := parse_int ((data.drop 2).take 8)
              latency := parse_int ((data.drop 10).take 2)
              error := parse_int ((data.drop 12).take 2)
              format_len := data.getD 15 0
              size := parse_int ((data.drop 16).take 4) }
  else
    .error (.assertionError ("Cannot parse header with " ++
      toString data.length ++ " bytes. Expected 20 bytes."))

/-- Python `bytes.decode("ascii")`: succeeds iff every byte is `< 128`,
otherwise raises `UnicodeDecodeError`. -/
def asciiDecode (data : List Nat) : Except PyError String :=
  if data.all (fun b => b < 128) then .ok (String.mk (data.map Char.ofNat))
  else .error .unicodeDecodeError

/-- `models.py` `_check_body_errors`: if the header message type is `ERROR`,
decode the whole body as ASCII and raise `ResponseError` with that text. -/
def _check_body_errors (header : Header) (body_data : List Nat) :
    Except PyError Unit :=
  if header.message_type = MessageType.ERROR then
    match asciiDecode body_data with
    | .error e => .error e
    | .ok msg => .error (.responseError msg)
  else .ok ()

/-- `models.py` `_pt_to_price_mul`: price-type index to price multiplier.
The Python list holds float literals; they are modelled at their exact
decimal values. -/
def _pt_to_price_mul : List Rat :=
  [0,
   1 / 1000000000,
   1 / 100000000,
   1 / 10000000,
   1 / 1000000,
   1 / 100000,
   1 / 10000,
   1 / 1000,
   1 / 100,
   1 / 10,
   1,
   10,
   100,
   1000,
   10000,
   100000,
   1000000,
   10000000,
   100000000,
   1000000000]

/-- Left-to-right effectful map over `Except`, mirroring a Python loop (or a
forced `map`) that raises at the first failing element. -/
def mapExcept (f : α → Except PyError β) : List α → Except PyError (List β)
  | [] => .ok []
  | a :: as =>
      match f a with
      | .error e => .error e
      | .ok b =>
          match mapExcept f as with
          | .error e => .error e
          | .ok bs => .ok (b :: bs)

/-- `parse_int(data[off : off + 4])`: one 4-byte big-endian field.  Like a
Python `memoryview` slice, an out-of-range slice silently truncates. -/
def parseWord (data : List Nat) (off : Nat) : Nat :=
  parse_int ((data.drop off).take 4)

/-- One row of the tick table: the `format_len` 4-byte fields of row `tn`
(row 0 is the format row), read at `tick_offset = tn * format_len * 4`. -/
def readTick (data : List Nat) (fmtLen tn : Nat) : List Nat :=
  (List.range fmtLen).map (fun b => parseWord data (tn * fmtLen * 4 + b * 4))

/-- The decoded tick table: the dataframe columns and its rows. -/
structure TickTable where
  columns : List DataType
  rows : List (List Rat)
  deriving DecidableEq, Repr

/-- The body of the per-tick loop of `TickBody.parse` after the raw integers
of one tick were read.  `idx?` is the state of the local `price_type_idx`:
`none` means the variable was never assigned (no `PRICE_TYPE` column), so the
`price_type_idx is not None` test raises `UnboundLocalError`.  Otherwise the
tick's value at that position indexes `_pt_to_price_mul` (an out-of-range
index raises `IndexError`), every field whose format entry `is_price()` is
multiplied by the multiplier, and the price-type entry is deleted. -/
def processTick (format : List DataType) (idx? : Option Nat)
    (tick : List Nat) : Except PyError (List Rat) :=
  match idx? with
  | none => .error (.unboundLocalError "price_type_idx")
  | some idx =>
      match tick.get? idx with
      | none => .error .indexError
      | some pt =>
          match _pt_to_price_mul.get? pt with
          | none => .error .indexError
          | some mul =>
              .ok (List.eraseIdx
                ((format.zip tick).map (fun p =>
                  if p.1.is_price then (p.2 : Rat) * mul else (p.2 : Rat)))
                idx)

/-- `TickBody.parse`: asserts `len(data) == header.size`, checks for a
Terminal error, computes `n_ticks = int(header.size / (header.format_len *
4))` (a `ZeroDivisionError` when `format_len == 0`; otherwise floor
division), decodes the format row through `DataType.from_code`, sets
`price_type_idx` only when a `PRICE_TYPE` column exists (`df.columns.get_loc`
is the first occurrence; duplicate `PRICE_TYPE` columns, where pandas returns
a mask and row indexing fails, are outside this model), processes data rows
`1..n_ticks-1`, and finally drops the `PRICE_TYPE` column (`del df[...]`
removes every occurrence). -/
def TickBody.parse (header : Header) (data : List Nat) :
    Except PyError TickTable :=
  if data.length = header.size then
    match _check_body_errors header data with
    | .error e => .error e
    | .ok _ =>
        if header.format_len = 0 then .error .zeroDivisionError
        else
          let n_ticks := header.size / (header.format_len * 4)
          match mapExcept DataType.from_code
              (readTick data header.format_len 0) with
          | .error e => .error e
          | .ok format =>
              let idx? : Option Nat :=
                if DataType.PRICE_TYPE ∈ format then
                  some (format.findIdx (fun c => c == DataType.PRICE_TYPE))
                else none
              match mapExcept
                  (fun tn => processTick format idx?
                    (readTick data header.format_len tn))
                  (List.range' 1 (n_ticks - 1)) with
              | .error e => .error e
              | .ok rows =>
                  match idx? with
                  | none => .error (.unboundLocalError "price_type_idx")
                  | some _ =>
                      .ok { columns :=
                              format.filter (fun c => c != DataType.PRICE_TYPE)
                            rows := rows }
  else
    .error (.assertionError ("Cannot parse body with " ++
      toString data.length ++ " bytes. Expected " ++
      toString header.size ++ " bytes."))

/-- Python `str.split(",")` on the character list of a string: splits at every
comma and never returns an empty list (the empty string yields `[""]`). -/
def splitComma : List Char → List (List Char)
  | [] => [[]]
  | c :: rest =>
      if c = ',' then [] :: splitComma rest
      else
        match splitComma rest with
        | t :: ts => (c :: t) :: ts
        | [] => [[c]]

/-- `ListBody.parse`: asserts `len(data) == header.size`, checks for a
Terminal error, ASCII-decodes the body and splits it on `","`. -/
def ListBody.parse (header : Header) (data : List Nat) :
    Except PyError (List String) :=
  if data.length = header.size then
    match _check_body_errors header data with
    | .error e => .error e
    | .ok _ =>
        match asciiDecode data with
        | .error e => .error e
        | .ok s => .ok ((splitComma s.data).map String.mk)
  else
    .error (.assertionError ("Cannot parse body with " ++
      toString data.length ++ " bytes. Expected " ++
      toString header.size ++ " bytes."))

/-- Python `round` on an exact rational: round half to even, as
`round(float)` does. -/
def pyRound (x : Rat) : Int :=
  let f : Int := Rat.floor x
  let frac : Rat := x - f
  if frac < 1 / 2 then f
  else if 1 / 2 < frac then f + 1
  else if f % 2 = 0 then f else f + 1

/-- `client.py` `_format_strike`: `round(strike * 1000)`. -/
def _format_strike (strike : Rat) : Int :=
  pyRound (strike * 1000)

/-- The connection-relevant state of a `ThetaClient`: `self._server` is
`None` while disconnected, or a connected socket (abstracted to its file
descriptor). -/
structure ClientState where
  _server : Option Nat
  deriving DecidableEq, Repr

/-- Modelled from the spec: the `KILL` message code is defined in the
`thetadata/enums.py` module, which is not among the provided sources, so the
code value is kept as a parameter; the spec only fixes the request shape
`MSG_CODE=<KILL code>` followed by a newline. -/
def killMessage (killCode : Nat) : String :=
  "MSG_CODE=" ++ toString killCode ++ "\n"

/-- `ThetaClient.kill`: builds the kill message and calls
`self._server.sendall(...)` without any connection precondition check (the
assert is commented out in the source).  When `_server` is `None`, attribute
access on `None` raises `AttributeError`; otherwise the message is sent and
returned here as the observable effect. -/
def ThetaClient.kill (killCode : Nat) (st : ClientState) :
    Except PyError String :=
  match st._server with
  | none => .error (.attributeError "NoneType object has no attribute sendall")
  | some _ => .ok (killMessage killCode)

/-- Big-endian 4-byte encoding of a 32-bit value (the inverse of
`parseWord`); used to state theorems about whole wire bodies. -/
def encodeWord (v : Nat) : List Nat :=
  [v / 16777216 % 256, v / 65536 % 256, v / 256 % 256, v % 256]

/-- Byte encoding of one tick row: the 4-byte fields in order. -/
def encodeRow (row : List Nat) : List Nat :=
  (row.map encodeWord).flatten

/-- Byte encoding of a sequence of tick rows. -/
def encodeTable (rows : List (List Nat)) : List Nat :=
  (rows.map encodeRow).flatten

/-- The ASCII bytes of the Terminal error text `"bad root symbol"`. -/
def badRootBytes : List Nat :=
  [98, 97, 100, 32, 114, 111, 111, 116, 32, 115, 121, 109, 98, 111, 108]

/-- A header reporting a Terminal error whose body is `badRootBytes`. -/
def hdrError : Header := ⟨MessageType.ERROR, 0, 0, 0, 1, 15⟩

/-- A benign header announcing an empty list body. -/
def hdrEmptyList : Header := ⟨MessageType.HIST, 0, 0, 0, 0, 0⟩

/-- A benign header for a 1-column, 2-row tick body. -/
def hdrNoPT : Header := ⟨MessageType.HIST, 0, 0, 0, 1, 8⟩

/-- A tick body whose format row is `[DATE]` (no `PRICE_TYPE`) with one data
row holding the single value 5. -/
def bodyNoPT : List Nat := [0, 0, 0, 0, 0, 0, 0, 5]

/-- A header whose size (18) is not a multiple of `format_len * 4 = 8`. -/
def hdrTrunc : Header := ⟨MessageType.HIST, 0, 0, 0, 2, 18⟩

/-- An 18-byte body: format row `[PRICE_TYPE, BID]`, data row `[10, 7]`
(price type 10 selects multiplier 1), and two trailing bytes. -/
def bodyTrunc : List Nat :=
  [0, 0, 0, 4, 0, 0, 0, 103, 0, 0, 0, 10, 0, 0, 0, 7, 0, 0]

/-- A header whose size (19) is not a multiple of `format_len * 4 = 8`. -/
def hdrTrunc2 : Header := ⟨MessageType.HIST, 0, 0, 0, 2, 19⟩

/-- A 19-byte body: format row `[PRICE_TYPE, BID]`, data row `[13, 7]`
(price type 13 selects multiplier 1000), and three trailing bytes. -/
def bodyTrunc2 : List Nat :=
  [0, 0, 0, 4, 0, 0, 0, 103, 0, 0, 0, 13, 0, 0, 0, 7, 1, 2, 3]

/-- A benign header for a 2-column tick body of exactly 2 rows. -/
def hdrScale : Header := ⟨MessageType.HIST, 0, 0, 0, 2, 16⟩

/-!  ## Theorems -/

/-- Claim C1: `Header.parse` of any 20-byte input decodes the message-type
code from bytes 0-1 through `MessageType`, the id from bytes 2-9, the
latency from bytes 10-11, the error from bytes 12-13, the format length from
byte 15 (byte 14 is ignored) and the size from bytes 16-19, all as big-endian
unsigned integers; any other input length yields the malformed-input
assertion error. -/
theorem header_parse_layout :
    (∀ b0 b1 b2 b3 b4 b5 b6 b7 b8 b9 b10 b11 b12 b13 b14 b15 b16 b17 b18
        b19 : Nat,
      Header.parse [b0, b1, b2, b3, b4, b5, b6, b7, b8, b9, b10, b11, b12,
          b13, b14, b15, b16, b17, b18, b19] =
        (MessageType.from_code (parse_int [b0, b1])).map (fun mt =>
          { message_type := mt
            id := parse_int [b2, b3, b4, b5, b6, b7, b8, b9]
            latency := parse_int [b10, b11]
            error := parse_int [b12, b13]
            format_len := b15
            size := parse_int [b16, b17, b18, b19] })) ∧
    (∀ data : List Nat, data.length ≠ 20 →
      Header.parse data = .error (.assertionError ("Cannot parse header with "
        ++ toString data.length ++ " bytes. Expected 20 bytes."))) := by
  constructor
  · intro b0 b1 b2 b3 b4 b5 b6 b7 b8 b9 b10 b11 b12 b13 b14 b15 b16 b17 b18 b19
    simp only [parse_int, List.foldl, Nat.zero_mul, Nat.zero_add]
    cases h : MessageType.from_code (b0 * 256 + b1) <;>
      simp [Header.parse, parse_int, h, Except.map]
  · intro data h
    unfold Header.parse
    rw [if_neg h]

/-- Witness for C1 at concrete inputs: a well-formed 20-byte header buffer
and an empty (length-0) buffer. -/
theorem header_parse_layout_witness :
    Header.parse [0, 200, 0, 0, 0, 0, 0, 0, 0, 7, 0, 9, 0, 0, 0, 3, 0, 0, 0,
        24] =
      (MessageType.from_code (parse_int [0, 200])).map (fun mt =>
        { message_type := mt
          id := parse_int [0, 0, 0, 0, 0, 0, 0, 7]
          latency := parse_int [0, 9]
          error := parse_int [0, 0]
          format_len := 3
          size := parse_int [0, 0, 0, 24] }) ∧
    Header.parse [] = .error (.assertionError ("Cannot parse header with "
      ++ toString (List.length ([] : List Nat)) ++
      " bytes. Expected 20 bytes.")) :=
  ⟨header_parse_layout.1 0 200 0 0 0 0 0 0 0 7 0 9 0 0 0 3 0 0 0 24,
   header_parse_layout.2 [] (by decide)⟩

/-- Claim C2: when the header's message type is `ERROR` and the body has the
announced size, both body parsers raise `ResponseError` carrying the ASCII
decoding of the body verbatim, with no structural decoding attempted. -/
theorem error_response_short_circuits
    (header : Header) (data : List Nat)
    (hmsg : header.message_type = MessageType.ERROR)
    (hlen : data.length = header.size)
    (h128 : ∀ b ∈ data, b < 128) :
    TickBody.parse header data =
        .error (.responseError (String.mk (data.map Char.ofNat))) ∧
    ListBody.parse header data =
        .error (.responseError (String.mk (data.map Char.ofNat))) := by
  have hall : data.all (fun b => decide (b < 128)) = true := by
    rw [List.all_eq_true]
    intro b hb
    exact decide_eq_true (h128 b hb)
  have hcheck : _check_body_errors header data =
      .error (.responseError (String.mk (data.map Char.ofNat))) := by
    unfold _check_body_errors asciiDecode
    rw [if_pos hmsg, if_pos hall]
  constructor
  · unfold TickBody.parse
    rw [if_pos hlen, hcheck]
  · unfold ListBody.parse
    rw [if_pos hlen, hcheck]

/-- Witness for C2: the error body `"bad root symbol"` short-circuits both
parsers with that exact message. -/
theorem error_response_short_circuits_witness :
    TickBody.parse hdrError badRootBytes =
        .error (.responseError "bad root symbol") ∧
    ListBody.parse hdrError badRootBytes =
        .error (.responseError "bad root symbol") := by
  have h := error_response_short_circuits hdrError badRootBytes rfl rfl
    (by decide)
  constructor
  · rw [h.1]; decide
  · rw [h.2]; decide

/-- Claim C5: decode-by-code on `DataType` and `MessageType` returns the
member whose value equals the code (so decoding an encoded member is the
identity, the round-trip law), and any code that matches no member raises an
enum-decode error carrying exactly that code and the target enumeration's
identity.  Encoding (`member.value`) is a total function, never failing. -/
theorem from_code_round_trip :
    (∀ m : DataType, DataType.from_code m.value = .ok m) ∧
    (∀ c : Nat, (∀ m : DataType, m.value ≠ c) →
      DataType.from_code c = .error (.enumParseError c "DataType")) ∧
    (∀ m : MessageType, MessageType.from_code m.value = .ok m) ∧
    (∀ c : Nat, (∀ m : MessageType, m.value ≠ c) →
      MessageType.from_code c = .error (.enumParseError c "MessageType")) := by
  refine ⟨?_, ?_, ?_, ?_⟩
  · intro m; cases m <;> rfl
  · intro c h
    unfold DataType.from_code
    have hnone : DataType.members.find? (fun m => c == m.value) = none := by
      rw [List.find?_eq_none]
      intro m _
      simpa using (h m).symm
    rw [hnone]
  · intro m; cases m <;> rfl
  · intro c h
    unfold MessageType.from_code
    have hnone : MessageType.members.find? (fun m => c == m.value) = none := by
      rw [List.find?_eq_none]
      intro m _
      simpa using (h m).symm
    rw [hnone]

/-- Witness for C5: `BID` round-trips through code 103, code 3 (absent from
`DataType`) and code 999 (absent from `MessageType`) raise enum-decode
errors, and `ERROR` round-trips through code 101. -/
theorem from_code_round_trip_witness :
    DataType.from_code (DataType.value DataType.BID) = .ok DataType.BID ∧
    DataType.from_code 3 = .error (.enumParseError 3 "DataType") ∧
    MessageType.from_code (MessageType.value MessageType.ERROR) =
      .ok MessageType.ERROR ∧
    MessageType.from_code 999 = .error (.enumParseError 999 "MessageType") :=
  ⟨from_code_round_trip.1 DataType.BID,
   from_code_round_trip.2.1 3 (by decide),
   from_code_round_trip.2.2.1 MessageType.ERROR,
   from_code_round_trip.2.2.2 999 (by decide)⟩

/-- Claim C7: `DateRange` construction succeeds exactly when
`start <= end` and otherwise fails with the construction assertion;
`DateRange.from_days n` for nonnegative `n` yields `end = today` and
`start = today - n` (so `from_days 0` gives `start = end = today`), and a
negative `n` fails. -/
theorem dateRange_spec :
    (∀ s e : Int, s ≤ e → DateRange.init s e = .ok ⟨s, e⟩) ∧
    (∀ s e : Int, ¬s ≤ e → DateRange.init s e =
      .error (.assertionError "Start date cannot be greater than end date")) ∧
    (∀ today n : Int, 0 ≤ n →
      DateRange.from_days today n = .ok ⟨today - n, today⟩) ∧
    (∀ today : Int, DateRange.from_days today 0 = .ok ⟨today, today⟩) ∧
    (∀ today n : Int, n < 0 →
      DateRange.from_days today n =
        .error (.assertionError "n must be nonnegative")) := by
  have hinit : ∀ s e : Int, s ≤ e → DateRange.init s e = .ok ⟨s, e⟩ := by
    intro s e h
    unfold DateRange.init
    rw [if_pos h]
  have hfrom : ∀ today n : Int, 0 ≤ n →
      DateRange.from_days today n = .ok ⟨today - n, today⟩ := by
    intro today n h
    unfold DateRange.from_days
    rw [if_pos h]
    exact hinit _ _ (by omega)
  refine ⟨hinit, ?_, hfrom, ?_, ?_⟩
  · intro s e h
    unfold DateRange.init
    rw [if_neg h]
  · intro today
    have h := hfrom today 0 le_rfl
    rwa [sub_zero] at h
  · intro today n h
    unfold DateRange.from_days
    rw [if_neg (by omega)]

/-- Witness for C7 on concrete day numbers (days 100 and 105 of an epoch):
an ordered pair succeeds, a reversed pair fails, `from_days 5` spans five
days back from today, `from_days 0` collapses to today, and `from_days (-1)`
fails. -/
theorem dateRange_spec_witness :
    DateRange.init 100 105 = .ok ⟨100, 105⟩ ∧
    DateRange.init 105 100 =
      .error (.assertionError "Start date cannot be greater than end date") ∧
    DateRange.from_days 105 5 = .ok ⟨100, 105⟩ ∧
    DateRange.from_days 105 0 = .ok ⟨105, 105⟩ ∧
    DateRange.from_days 105 (-1) =
      .error (.assertionError "n must be nonnegative") :=
  ⟨dateRange_spec.1 100 105 (by decide),
   dateRange_spec.2.1 105 100 (by decide),
   dateRange_spec.2.2.1 105 5 (by decide),
   dateRange_spec.2.2.2.1 105,
   dateRange_spec.2.2.2.2 105 (-1) (by decide)⟩

/-- Claim C9 (code bug): `kill` has no connection-precondition assert, but on
a client whose `_server` is still `None` (connect never called) the attribute
access `self._server.sendall` raises `AttributeError` instead of sending; the
kill message is only sent when a socket is present. -/
theorem kill_disconnected_raises :
    (∀ killCode : Nat, ThetaClient.kill killCode ⟨none⟩ =
      .error (.attributeError "NoneType object has no attribute sendall")) ∧
    (∀ (killCode : Nat) (s : Nat), ThetaClient.kill killCode ⟨some s⟩ =
      .ok (killMessage killCode)) :=
  ⟨fun _ => rfl, fun _ _ => rfl⟩

/-- `splitComma` never produces an empty token list. -/
theorem splitComma_ne_nil (l : List Char) : splitComma l ≠ [] := by
  induction l with
  | nil => simp [splitComma]
  | cons c rest ih =>
      unfold splitComma
      split
      · simp
      · cases h : splitComma rest <;> simp

/-- Claim C10: a non-error header of size 0 with an empty body parses to the
one-element token list `[""]`; in general a successful `ListBody.parse`
never returns an empty token list. -/
theorem listBody_tokens_nonempty :
    (∀ header : Header, header.message_type ≠ MessageType.ERROR →
      header.size = 0 → ListBody.parse header [] = .ok [""]) ∧
    (∀ (header : Header) (data : List Nat) (out : List String),
      ListBody.parse header data = .ok out → out ≠ []) := by
  constructor
  · intro header hmsg hsize
    unfold ListBody.parse
    rw [if_pos (by rw [hsize]; rfl)]
    unfold _check_body_errors
    rw [if_neg hmsg]
    rfl
  · intro header data out h
    unfold ListBody.parse at h
    split at h
    · cases hc : _check_body_errors header data with
      | error e => rw [hc] at h; exact absurd h (by simp)
      | ok u =>
          rw [hc] at h
          cases ha : asciiDecode data with
          | error e => rw [ha] at h; exact absurd h (by simp)
          | ok s =>
              rw [ha] at h
              have hout : (splitComma s.data).map String.mk = out := by
                simpa using h
              rw [← hout]
              simp [splitComma_ne_nil]
    · exact absurd h (by simp)

/-- Witness for C10: the empty body under a non-error size-0 header yields
the single empty token, which is a nonempty token list. -/
theorem listBody_tokens_nonempty_witness :
    ListBody.parse hdrEmptyList [] = .ok [""] ∧
    ([""] : List String) ≠ [] :=
  ⟨listBody_tokens_nonempty.1 hdrEmptyList (by decide) rfl,
   listBody_tokens_nonempty.2 hdrEmptyList [] [""]
     (listBody_tokens_nonempty.1 hdrEmptyList (by decide) rfl)⟩

/-- `Batteries.Rat.floor` agrees with the mathematical floor. -/
theorem ratFloor_eq_floor (x : Rat) : Rat.floor x = ⌊x⌋ := by
  rw [Rat.floor_def', Rat.floor_def]

/-- Claim C8: the strike-formatting helper returns the strike multiplied by
1000 and rounded to the nearest integer (whenever a strictly nearest integer
exists); in particular `163.455` encodes to `163455` and `100.0` to
`100000`. -/
theorem format_strike_nearest :
    (∀ (s : Rat) (k : Int), |s * 1000 - k| < 1 / 2 → _format_strike s = k) ∧
    _format_strike 163.455 = 163455 ∧
    _format_strike 100 = 100000 := by
  have main : ∀ (s : Rat) (k : Int), |s * 1000 - k| < 1 / 2 →
      _format_strike s = k := by
    intro s k h
    rw [abs_lt] at h
    obtain ⟨h1, h2⟩ := h
    simp only [_format_strike, pyRound]
    by_cases hk : (k : Rat) ≤ s * 1000
    · have hf : Rat.floor (s * 1000) = k := by
        rw [ratFloor_eq_floor, Int.floor_eq_iff]
        exact ⟨hk, by linarith⟩
      rw [hf, if_pos (by linarith)]
    · push_neg at hk
      have hf : Rat.floor (s * 1000) = k - 1 := by
        rw [ratFloor_eq_floor, Int.floor_eq_iff]
        constructor
        · push_cast; linarith
        · push_cast; linarith
      rw [hf]
      have hc : ((k - 1 : Int) : Rat) = (k : Rat) - 1 := by push_cast; ring
      rw [if_neg (by rw [hc]; linarith), if_pos (by rw [hc]; linarith)]
      omega
  exact ⟨main, main 163.455 163455 (by norm_num),
    main 100 100000 (by norm_num)⟩

/-- Witness for C8: the nearest-integer law applied at the two concrete
strikes of the claim. -/
theorem format_strike_nearest_witness :
    _format_strike 163.455 = 163455 ∧ _format_strike 100 = 100000 :=
  ⟨format_strike_nearest.1 163.455 163455 (by norm_num),
   format_strike_nearest.1 100 100000 (by norm_num)⟩

/-- Mapping `processTick` with an unassigned `price_type_idx` over any
nonempty row list raises `UnboundLocalError` at the first row; over an empty
list it returns no rows. -/
theorem mapExcept_processTick_none (fmt : List DataType) (f : Nat → List Nat)
    (l : List Nat) :
    mapExcept (fun tn => processTick fmt none (f tn)) l = .ok [] ∨
    mapExcept (fun tn => processTick fmt none (f tn)) l =
      .error (.unboundLocalError "price_type_idx") := by
  cases l with
  | nil => exact Or.inl rfl
  | cons tn rest => exact Or.inr (by simp [mapExcept, processTick])

/-- Claim C4 (code bug): on any well-formed tick body whose decoded format
row has no `PRICE_TYPE` column, `TickBody.parse` raises
`UnboundLocalError("price_type_idx")` — the local is only assigned under
`if DataType.PRICE_TYPE in df.columns`, yet is read unconditionally — instead
of passing the integer fields through unscaled. -/
theorem tickBody_missing_price_type_unbound
    (header : Header) (data : List Nat) (fmt : List DataType)
    (hlen : data.length = header.size)
    (hmsg : header.message_type ≠ MessageType.ERROR)
    (hflen : header.format_len ≠ 0)
    (hfmt : mapExcept DataType.from_code (readTick data header.format_len 0) =
      .ok fmt)
    (hmem : DataType.PRICE_TYPE ∉ fmt) :
    TickBody.parse header data = .error (.unboundLocalError "price_type_idx") := by
  have hcheck : _check_body_errors header data = .ok () := by
    unfold _check_body_errors
    rw [if_neg hmsg]
  rcases mapExcept_processTick_none fmt
    (fun tn => readTick data header.format_len tn)
    (List.range' 1 (header.size / (header.format_len * 4) - 1)) with hrows | hrows <;>
    simp [TickBody.parse, hlen, hcheck, hflen, hfmt, hmem, hrows]

/-- Witness for C4: the concrete body with format row `[DATE]` and one data
row crashes with the unbound-local error. -/
theorem tickBody_missing_price_type_unbound_witness :
    TickBody.parse hdrNoPT bodyNoPT =
      .error (.unboundLocalError "price_type_idx") :=
  tickBody_missing_price_type_unbound hdrNoPT bodyNoPT [DataType.DATE]
    (by decide) (by decide) (by decide) (by decide) (by decide)

/-- Counterexample to claim C6 as stated: an 18-byte body under a header
with `format_len = 2` (`18 % 8 = 2`, not a whole number of rows) is not
rejected with a malformed-input error — `TickBody.parse` succeeds, decoding
`int(18 / 8) = 2` rows and silently ignoring the 2 trailing bytes. -/
theorem tickBody_size_not_multiple_still_parses :
    TickBody.parse hdrTrunc bodyTrunc = .ok ⟨[DataType.BID], [[7]]⟩ ∧
    hdrTrunc.size % (hdrTrunc.format_len * 4) ≠ 0 := by
  constructor
  · simp +decide [TickBody.parse, _check_body_errors, readTick, parseWord,
      parse_int, mapExcept, DataType.from_code, DataType.members, processTick,
      _pt_to_price_mul, DataType.is_price, hdrTrunc, bodyTrunc, List.range',
      List.findIdx_cons, show List.range 2 = [0, 1] from rfl]
  · decide

/-- Claim C6 as amended: `TickBody.parse` fails with the malformed-input
assertion exactly when the body length differs from `header.size`; a
`header.size` that is not a multiple of `format_len * 4` is not rejected —
the parser decodes `floor(size / (format_len * 4))` rows and ignores the
trailing remainder bytes (shown on a 19-byte body with 3 trailing bytes,
whose single data row is still price-scaled by 1000). -/
theorem tickBody_length_mismatch_only
    (header : Header) (data : List Nat) :
    (data.length ≠ header.size →
      TickBody.parse header data = .error (.assertionError
        ("Cannot parse body with " ++ toString data.length ++
         " bytes. Expected " ++ toString header.size ++ " bytes."))) ∧
    TickBody.parse hdrTrunc2 bodyTrunc2 = .ok ⟨[DataType.BID], [[7000]]⟩ := by
  constructor
  · intro h
    unfold TickBody.parse
    rw [if_neg h]
  · simp +decide [TickBody.parse, _check_body_errors, readTick, parseWord,
      parse_int, mapExcept, DataType.from_code, DataType.members, processTick,
      _pt_to_price_mul, DataType.is_price, hdrTrunc2, bodyTrunc2, List.range',
      List.findIdx_cons, show List.range 2 = [0, 1] from rfl]
    norm_num

/-- Witness for C6 (amended): an empty body under a header announcing 8
bytes is rejected with the malformed-input assertion. -/
theorem tickBody_length_mismatch_only_witness :
    TickBody.parse hdrNoPT [] = .error (.assertionError
      ("Cannot parse body with " ++ toString (List.length ([] : List Nat)) ++
       " bytes. Expected " ++ toString hdrNoPT.size ++ " bytes.")) :=
  (tickBody_length_mismatch_only hdrNoPT []).1 (by decide)

/-- Decoding a 4-byte big-endian encoding recovers any 32-bit value. -/
theorem parse_int_encodeWord (v : Nat) (hv : v < 4294967296) :
    parse_int (encodeWord v) = v := by
  simp [parse_int, encodeWord, List.foldl]
  omega

/-- `encodeRow` distributes over `cons`. -/
theorem encodeRow_cons (v : Nat) (r : List Nat) :
    encodeRow (v :: r) = encodeWord v ++ encodeRow r := by
  simp [encodeRow]

/-- An encoded row occupies 4 bytes per field. -/
theorem encodeRow_length (row : List Nat) :
    (encodeRow row).length = 4 * row.length := by
  induction row with
  | nil => rfl
  | cons v r ih =>
      rw [encodeRow_cons, List.length_append, ih]
      simp [encodeWord]
      ring

/-- `encodeTable` distributes over `cons`. -/
theorem encodeTable_cons (r : List Nat) (rs : List (List Nat)) :
    encodeTable (r :: rs) = encodeRow r ++ encodeTable rs := by
  simp [encodeTable]

/-- An encoded table of uniform row length `L` occupies `4 * L` bytes per
row. -/
theorem encodeTable_length (rows : List (List Nat)) (L : Nat)
    (h : ∀ r ∈ rows, r.length = L) :
    (encodeTable rows).length = rows.length * (4 * L) := by
  induction rows with
  | nil => simp [encodeTable]
  | cons r rs ih =>
      rw [encodeTable_cons, List.length_append, encodeRow_length,
        h r (List.mem_cons_self r rs),
        ih (fun x hx => h x (List.mem_cons_of_mem r hx))]
      simp [List.length_cons]
      ring

/-- Reading field `b` of an encoded row (followed by anything) returns the
row's `b`-th value. -/
theorem parseWord_encodeRow (row : List Nat) :
    ∀ (rest : List Nat) (b : Nat), b < row.length →
      (∀ v ∈ row, v < 4294967296) →
      parseWord (encodeRow row ++ rest) (b * 4) = row.getD b 0 := by
  induction row with
  | nil => intro rest b hb; exact absurd hb (by simp)
  | cons v r ih =>
      intro rest b hb hv
      cases b with
      | zero =>
          rw [encodeRow_cons, List.append_assoc]
          show parseWord (encodeWord v ++ (encodeRow r ++ rest)) 0 = v
          unfold parseWord
          rw [List.drop_zero, List.take_left' (by simp [encodeWord])]
          exact parse_int_encodeWord v (hv v (List.mem_cons_self v r))
      | succ b =>
          rw [encodeRow_cons, List.append_assoc]
          have hidx : (b + 1) * 4 = 4 + b * 4 := by ring
          have hdrop : List.drop ((b + 1) * 4)
              (encodeWord v ++ (encodeRow r ++ rest)) =
              List.drop (b * 4) (encodeRow r ++ rest) := by
            rw [hidx, ← List.drop_drop,
              List.drop_left' (by simp [encodeWord])]
          unfold parseWord
          rw [hdrop]
          have := ih rest b (by simpa using hb)
            (fun x hx => hv x (List.mem_cons_of_mem v hx))
          unfold parseWord at this
          rw [this]
          simp

/-- A map over `range l.length` that returns `l`'s entries pointwise is
`l`. -/
theorem map_range_getD (l : List Nat) (n : Nat) (hn : n = l.length) :
    ∀ f : Nat → Nat, (∀ b, b < l.length → f b = l.getD b 0) →
      (List.range n).map f = l := by
  subst hn
  induction l with
  | nil => intro f _; rfl
  | cons x xs ih =>
      intro f h
      rw [List.length_cons, List.range_succ_eq_map, List.map_cons,
        List.map_map]
      congr 1
      · exact h 0 (by simp)
      · exact ih (f ∘ Nat.succ) (fun b hb => by
          have := h (b + 1) (by simpa using Nat.succ_lt_succ hb)
          simpa using this)

/-- Reading row 0 of an encoded body returns the format row. -/
theorem readTick_encode_format (row rest : List Nat)
    (hv : ∀ v ∈ row, v < 4294967296) :
    readTick (encodeRow row ++ rest) row.length 0 = row := by
  unfold readTick
  simp only [Nat.zero_mul, Nat.zero_add]
  exact map_range_getD row row.length rfl _
    (fun b hb => parseWord_encodeRow row rest b hb hv)

/-- Dropping `k` encoded rows from an encoded table of uniform row length
`L` leaves the encoding of the remaining rows. -/
theorem drop_encodeTable (L : Nat) :
    ∀ (k : Nat) (rows : List (List Nat)), (∀ r ∈ rows, r.length = L) →
      k ≤ rows.length →
      List.drop (k * (4 * L)) (encodeTable rows) = encodeTable (rows.drop k) := by
  intro k
  induction k with
  | zero => intro rows _ _; simp
  | succ k ih =>
      intro rows hlen hk
      cases rows with
      | nil => simp at hk
      | cons r rs =>
          rw [encodeTable_cons]
          have hidx : (k + 1) * (4 * L) = 4 * L + k * (4 * L) := by ring
          rw [hidx, ← List.drop_drop, List.drop_left'
            (by rw [encodeRow_length, hlen r (List.mem_cons_self r rs)])]
          rw [ih rs (fun x hx => hlen x (List.mem_cons_of_mem r hx))
            (by simpa using hk)]
          simp

/-- Shifting the read offset is dropping a prefix. -/
theorem parseWord_drop (data : List Nat) (o j : Nat) :
    parseWord data (o + j) = parseWord (data.drop o) j := by
  unfold parseWord
  rw [List.drop_drop]

/-- A successful `mapExcept` preserves list length. -/
theorem mapExcept_length {α β : Type} (f : α → Except PyError β) :
    ∀ (l : List α) (out : List β), mapExcept f l = .ok out →
      out.length = l.length := by
  intro l
  induction l with
  | nil =>
      intro out h
      simp only [mapExcept] at h
      cases h
      rfl
  | cons a as ih =>
      intro out h
      simp only [mapExcept] at h
      cases hf : f a with
      | error e => rw [hf] at h; exact absurd h (by simp)
      | ok b =>
          rw [hf] at h
          cases hm : mapExcept f as with
          | error e => rw [hm] at h; exact absurd h (by simp)
          | ok bs =>
              rw [hm] at h
              have hb : b :: bs = out := by simpa using h
              rw [← hb, List.length_cons, ih bs hm, List.length_cons]

/-- `mapExcept` over `range' s l.length` of a function that succeeds
pointwise with the entries of `l.map f` returns exactly `l.map f`. -/
theorem mapExcept_range' {α β : Type} (g : Nat → Except PyError β) :
    ∀ (l : List α) (f : α → β) (s : Nat),
      (∀ k, (hk : k < l.length) → g (s + k) = .ok (f (l.get ⟨k, hk⟩))) →
      mapExcept g (List.range' s l.length) = .ok (l.map f) := by
  intro l
  induction l with
  | nil => intro f s _; rfl
  | cons x xs ih =>
      intro f s h
      rw [List.length_cons, List.range'_succ]
      simp only [mapExcept]
      have h0 : g s = .ok (f x) := by
        have := h 0 (by simp)
        simpa using this
      rw [h0]
      have hrec : mapExcept g (List.range' (s + 1) xs.length) =
          .ok (xs.map f) := by
        apply ih f (s + 1)
        intro k hk
        have := h (k + 1) (by simpa using Nat.succ_lt_succ hk)
        rw [show s + (k + 1) = s + 1 + k by omega] at this
        simpa using this
      rw [hrec]
      simp

/-- The per-tick step with an in-range price type: the tick's value at the
`PRICE_TYPE` position selects the multiplier, exactly the `is_price`
(i.e. `BID`) columns are multiplied by it, and the price-type entry at that
position is deleted. -/
theorem processTick_ok (fmt : List DataType) (idx : Nat) (r : List Nat)
    (hidx : idx < r.length) (hpt : r.getD idx 0 < 20) :
    processTick fmt (some idx) r = .ok (List.eraseIdx
      ((fmt.zip r).map (fun p =>
        if p.1 = DataType.BID
        then (p.2 : Rat) * _pt_to_price_mul.getD (r.getD idx 0) 0
        else (p.2 : Rat))) idx) := by
  have h1 : r.get? idx = some (r.getD idx 0) := by
    rw [List.getD_eq_getElem r 0 hidx]
    exact List.get?_eq_get hidx
  have hlt : r.getD idx 0 < _pt_to_price_mul.length := by
    simpa [_pt_to_price_mul] using hpt
  have h2 : _pt_to_price_mul.get? (r.getD idx 0) =
      some (_pt_to_price_mul.getD (r.getD idx 0) 0) := by
    rw [List.getD_eq_getElem _ 0 hlt]
    exact List.get?_eq_get hlt
  simp only [processTick, h1, h2, DataType.is_price, beq_iff_eq]

/-- Reading data row `k` (wire row `k + 1`) of an encoded tick body returns
that row's values. -/
theorem readTick_encode_row (fmtRow : List Nat) (rows : List (List Nat))
    (k : Nat) (hk : k < rows.length)
    (hlen : ∀ r ∈ rows, r.length = fmtRow.length)
    (hval : ∀ v ∈ rows.getD k [], v < 4294967296) :
    readTick (encodeRow fmtRow ++ encodeTable rows) fmtRow.length (k + 1) =
      rows.getD k [] := by
  have hg : rows.getD k [] = rows.get ⟨k, hk⟩ := List.getD_eq_get rows [] hk
  have hmemk : rows.getD k [] ∈ rows := by
    rw [hg]; exact List.get_mem rows k hk
  have hrklen : (rows.getD k []).length = fmtRow.length := hlen _ hmemk
  have hdata : (encodeRow fmtRow ++ encodeTable rows).drop
      ((k + 1) * fmtRow.length * 4) =
      encodeRow (rows.getD k []) ++ encodeTable (rows.drop (k + 1)) := by
    have hidx : (k + 1) * fmtRow.length * 4 =
        4 * fmtRow.length + k * (4 * fmtRow.length) := by ring
    rw [hidx, ← List.drop_drop,
      List.drop_left' (encodeRow_length fmtRow),
      drop_encodeTable fmtRow.length k rows hlen (le_of_lt hk),
      List.drop_eq_getElem_cons hk, encodeTable_cons]
    congr 2
    rw [hg]
    simp
  unfold readTick
  apply map_range_getD _ fmtRow.length hrklen.symm
  intro b hb
  rw [parseWord_drop, hdata]
  exact parseWord_encodeRow _ _ b hb hval

/-- Claim C3: on any well-formed tick body whose format row contains the
`PRICE_TYPE` column (at position `idx`, occurring once) and whose price-type
values index the fixed 20-entry multiplier table, `TickBody.parse` multiplies
exactly the price-flagged columns — those whose `DataType` is `BID`, code
103, and no other (in particular not `ASK`, code 107) — of every data row by
`_pt_to_price_mul[pt]` where `pt` is that row's value at position `idx`,
deletes position `idx` from every data row, and drops `PRICE_TYPE` from the
output columns. -/
theorem tickBody_price_type_scaling
    (header : Header) (fmtRow : List Nat) (rows : List (List Nat))
    (fmt : List DataType)
    (hmsg : header.message_type ≠ MessageType.ERROR)
    (hfmt : mapExcept DataType.from_code fmtRow = .ok fmt)
    (hmem : DataType.PRICE_TYPE ∈ fmt)
    (_hone : fmt.count DataType.PRICE_TYPE = 1)
    (hcodes : ∀ c ∈ fmtRow, c < 4294967296)
    (hrlen : ∀ r ∈ rows, r.length = fmtRow.length)
    (hrval : ∀ r ∈ rows, ∀ v ∈ r, v < 4294967296)
    (hpt : ∀ r ∈ rows,
      r.getD (fmt.findIdx (fun c => c == DataType.PRICE_TYPE)) 0 < 20)
    (hflen : header.format_len = fmtRow.length)
    (hsize : header.size = (encodeRow fmtRow ++ encodeTable rows).length) :
    TickBody.parse header (encodeRow fmtRow ++ encodeTable rows) =
      .ok { columns := fmt.filter (fun c => c != DataType.PRICE_TYPE)
            rows := rows.map (fun r => List.eraseIdx
              ((fmt.zip r).map (fun p =>
                if p.1 = DataType.BID
                then (p.2 : Rat) * _pt_to_price_mul.getD
                  (r.getD (fmt.findIdx (fun c => c == DataType.PRICE_TYPE)) 0) 0
                else (p.2 : Rat)))
              (fmt.findIdx (fun c => c == DataType.PRICE_TYPE))) } := by
  have hfmtlen : fmt.length = fmtRow.length := mapExcept_length _ fmtRow fmt hfmt
  have hL0 : fmtRow.length ≠ 0 := by
    intro h0
    rw [List.length_eq_zero.mp (hfmtlen.trans h0)] at hmem
    simp at hmem
  have hidxlt : fmt.findIdx (fun c => c == DataType.PRICE_TYPE) < fmt.length :=
    List.findIdx_lt_length_of_exists ⟨DataType.PRICE_TYPE, hmem, by simp⟩
  have hcheck : _check_body_errors header
      (encodeRow fmtRow ++ encodeTable rows) = .ok () := by
    unfold _check_body_errors
    rw [if_neg hmsg]
  have hreadfmt : readTick (encodeRow fmtRow ++ encodeTable rows)
      fmtRow.length 0 = fmtRow :=
    readTick_encode_format fmtRow _ hcodes
  have hnt : header.size / (fmtRow.length * 4) = 1 + rows.length := by
    rw [hsize]
    have e1 : (encodeRow fmtRow ++ encodeTable rows).length =
        (1 + rows.length) * (fmtRow.length * 4) := by
      rw [List.length_append, encodeRow_length,
        encodeTable_length rows fmtRow.length hrlen]
      ring
    rw [e1, Nat.mul_div_cancel _ (by omega)]
  have hrowsmap : mapExcept (fun tn =>
      processTick fmt (some (fmt.findIdx (fun c => c == DataType.PRICE_TYPE)))
        (readTick (encodeRow fmtRow ++ encodeTable rows)
          fmtRow.length tn))
      (List.range' 1 rows.length) =
      .ok (rows.map (fun r => List.eraseIdx
        ((fmt.zip r).map (fun p =>
          if p.1 = DataType.BID
          then (p.2 : Rat) * _pt_to_price_mul.getD
            (r.getD (fmt.findIdx (fun c => c == DataType.PRICE_TYPE)) 0) 0
          else (p.2 : Rat)))
        (fmt.findIdx (fun c => c == DataType.PRICE_TYPE)))) := by
    apply mapExcept_range'
    intro k hk
    have hg : rows.getD k [] = rows.get ⟨k, hk⟩ := List.getD_eq_get rows [] hk
    have hmemk : rows.getD k [] ∈ rows := by
      rw [hg]; exact List.get_mem rows k hk
    rw [← hg, show 1 + k = k + 1 by omega,
      readTick_encode_row fmtRow rows k hk hrlen (hrval _ hmemk)]
    exact processTick_ok fmt _ (rows.getD k [])
      (by rw [hrlen _ hmemk, ← hfmtlen]; exact hidxlt) (hpt _ hmemk)
  simp [TickBody.parse, hsize.symm, hcheck, hflen, hL0, hreadfmt, hfmt, hmem,
    hnt, Nat.add_sub_cancel_left, hrowsmap]

/-- Witness for C3: format row `[PRICE_TYPE, BID]` with one data row
`[13, 7]` — price type 13 selects multiplier 1000, so `BID` becomes 7000 and
the `PRICE_TYPE` value and column are dropped. -/
theorem tickBody_price_type_scaling_witness :
    TickBody.parse hdrScale (encodeRow [4, 103] ++ encodeTable [[13, 7]]) =
      .ok ⟨[DataType.BID], [[7000]]⟩ := by
  have h := tickBody_price_type_scaling hdrScale [4, 103] [[13, 7]]
    [DataType.PRICE_TYPE, DataType.BID]
    (by decide) (by decide) (by decide) (by decide) (by decide) (by decide)
    (by decide) (by decide) (by decide) (by decide)
  rw [h]
  simp [List.findIdx_cons]
  norm_num [_pt_to_price_mul]

end Thetadata
